import Mathlib

/-!
Shallow embedding of the Mailroom Management Application core
(src/database/repository.py, src/database/schema.py, src/backend/main.py).

The SQLite store is modelled as lists of rows; each repository function
becomes a pure function from a `Store` to a result together with the new
`Store`.  API endpoints from `src/backend/main.py` are modelled on top of
the repository functions; the SMTP notification outcome is an external
oracle passed in as a `Bool`.
-/

namespace Mailroom

/-- Row of the Residents table (schema.py). -/
structure Resident where
  id : Nat
  full_name : String
  email : String
  unit_number : Int
  deriving Repr, DecidableEq

/-- Row of the Packages table (schema.py).  `status` is TEXT in the schema,
so it is modelled as a `String`, not as a closed enumeration. -/
structure Package where
  package_id : Nat
  resident_id : Nat
  carrier : String
  delivery_date : String
  status : String
  deriving Repr, DecidableEq

/-- Row of the UnknownPackages table (schema.py); `assigned_resident_id`
is a nullable column. -/
structure UnknownPackage where
  unknown_id : Nat
  name_on_label : String
  carrier : String
  delivery_date : String
  assigned_resident_id : Option Nat
  deriving Repr, DecidableEq

/-- The database state: the three tables the lifecycle operations touch,
plus the AUTOINCREMENT counters for the two auto-keyed tables.
(The StaffLogin table is irrelevant to every claim treated here.) -/
structure Store where
  residents : List Resident
  packages : List Package
  unknowns : List UnknownPackage
  next_package_id : Nat
  next_unknown_id : Nat
  deriving Repr, DecidableEq

/-- A row of `SELECT p.*, r.full_name, r.unit_number FROM Packages p JOIN
Residents r ON p.resident_id = r.id`, keeping the whole matched resident. -/
abbrev JoinedRow := Package × Resident

/-- SQL inner join `Packages p JOIN Residents r ON p.resident_id = r.id`. -/
def packages_join_residents (s : Store) : List JoinedRow :=
  s.packages.flatMap fun p =>
    (s.residents.filter fun r => r.id == p.resident_id).map fun r => (p, r)

/-- Comparison used for `ORDER BY p.delivery_date DESC` on joined rows.
Timestamps are the textual `YYYY-MM-DD HH:MM:SS` strings the code stores,
compared lexicographically. -/
def dateGe (a b : JoinedRow) : Prop :=
  b.1.delivery_date ≤ a.1.delivery_date

instance : DecidableRel dateGe := fun a b =>
  inferInstanceAs (Decidable (b.1.delivery_date ≤ a.1.delivery_date))

instance : IsTotal JoinedRow dateGe :=
  ⟨fun a b => (le_total b.1.delivery_date a.1.delivery_date)⟩

instance : IsTrans JoinedRow dateGe :=
  ⟨fun _ _ _ h1 h2 => le_trans h2 h1⟩

/-- Comparison used for `ORDER BY delivery_date DESC` on UnknownPackages rows. -/
def unknownDateGe (a b : UnknownPackage) : Prop :=
  b.delivery_date ≤ a.delivery_date

instance : DecidableRel unknownDateGe := fun a b =>
  inferInstanceAs (Decidable (b.delivery_date ≤ a.delivery_date))

instance : IsTotal UnknownPackage unknownDateGe :=
  ⟨fun a b => (le_total b.delivery_date a.delivery_date)⟩

instance : IsTrans UnknownPackage unknownDateGe :=
  ⟨fun _ _ _ h1 h2 => le_trans h2 h1⟩

/-- SQLite `LIKE` pattern matching: `%` matches any run of characters,
`_` matches exactly one character, and literal characters compare
ASCII-case-insensitively (SQLite folds case for ASCII only, as does
`Char.toLower`). -/
def likeAux : List Char → List Char → Bool
  | [], [] => true
  | [], _ :: _ => false
  | p :: ps, hay =>
    if p = '%' then
      likeAux ps hay ||
        (match hay with
         | [] => false
         | _ :: hs => likeAux (p :: ps) hs)
    else
      match hay with
      | [] => false
      | h :: hs => (p = '_' || p.toLower == h.toLower) && likeAux ps hs
termination_by ps hs => (ps.length, hs.length)

/-- String-level `text LIKE pattern`. -/
def sqlLike (pattern text : String) : Bool :=
  likeAux pattern.data text.data

namespace repository

/-- repository.get_resident_by_id: `SELECT * FROM Residents WHERE id = ?`,
`fetchone`. -/
def get_resident_by_id (s : Store) (resident_id : Nat) : Option Resident :=
  s.residents.find? fun r => r.id == resident_id

/-- repository.create_package: INSERT a Packages row with status `'Pending'`,
returning `lastrowid`. -/
def create_package (s : Store) (resident_id : Nat) (carrier delivery_date : String) :
    Nat × Store :=
  let package_id := s.next_package_id
  (package_id,
   { s with
     packages := s.packages ++ [⟨package_id, resident_id, carrier, delivery_date, "Pending"⟩],
     next_package_id := package_id + 1 })

/-- repository.get_pending_packages: join with Residents, keep status
`'Pending'`, `ORDER BY p.delivery_date DESC`. -/
def get_pending_packages (s : Store) : List JoinedRow :=
  List.insertionSort dateGe
    ((packages_join_residents s).filter fun row => row.1.status == "Pending")

/-- Row effect of `UPDATE Packages SET status = 'PickedUp' WHERE package_id = ?`. -/
def markFn (package_id : Nat) (p : Package) : Package :=
  if p.package_id == package_id then { p with status := "PickedUp" } else p

/-- repository.mark_package_picked_up: `UPDATE Packages SET status =
'PickedUp' WHERE package_id = ?`; returns `rowcount > 0`. -/
def mark_package_picked_up (s : Store) (package_id : Nat) : Bool × Store :=
  (s.packages.any fun p => p.package_id == package_id,
   { s with packages := s.packages.map (markFn package_id) })

/-- repository.get_package_by_id: `SELECT * FROM Packages WHERE package_id = ?`,
`fetchone`. -/
def get_package_by_id (s : Store) (package_id : Nat) : Option Package :=
  s.packages.find? fun p => p.package_id == package_id

/-- repository.log_unknown_package: INSERT an UnknownPackages row
(the nullable `assigned_resident_id` column is left NULL). -/
def log_unknown_package (s : Store) (name_on_label carrier delivery_date : String) :
    Nat × Store :=
  let unknown_id := s.next_unknown_id
  (unknown_id,
   { s with
     unknowns := s.unknowns ++ [⟨unknown_id, name_on_label, carrier, delivery_date, none⟩],
     next_unknown_id := unknown_id + 1 })

/-- repository.get_unknown_packages: `SELECT * FROM UnknownPackages WHERE
assigned_resident_id IS NULL ORDER BY delivery_date DESC`. -/
def get_unknown_packages (s : Store) : List UnknownPackage :=
  List.insertionSort unknownDateGe
    (s.unknowns.filter fun u => u.assigned_resident_id.isNone)

/-- Row effect of `UPDATE UnknownPackages SET assigned_resident_id = ?
WHERE unknown_id = ?`. -/
def assignFn (unknown_id resident_id : Nat) (u : UnknownPackage) : UnknownPackage :=
  if u.unknown_id == unknown_id then { u with assigned_resident_id := some resident_id } else u

/-- repository.assign_unknown_to_resident: fetch the UnknownPackages row;
if absent return False; otherwise set its `assigned_resident_id` and INSERT
a new Packages row with the unknown record's carrier and delivery date and
status `'Pending'`, committing both writes together. -/
def assign_unknown_to_resident (s : Store) (unknown_id resident_id : Nat) :
    Bool × Store :=
  match s.unknowns.find? fun u => u.unknown_id == unknown_id with
  | none => (false, s)
  | some unknown_pkg =>
    (true,
     { s with
       unknowns := s.unknowns.map (assignFn unknown_id resident_id),
       packages := s.packages ++
         [⟨s.next_package_id, resident_id, unknown_pkg.carrier, unknown_pkg.delivery_date, "Pending"⟩],
       next_package_id := s.next_package_id + 1 })

/-- Python truthiness of the optional `name_query` argument:
`None` and the empty string are falsy. -/
def truthyStr : Option String → Bool
  | none => false
  | some q => !(q == "")

/-- Python truthiness of the optional `unit_query` argument:
`None` and `0` are falsy. -/
def truthyInt : Option Int → Bool
  | none => false
  | some u => !(u == 0)

/-- repository.search_history: join with Residents; append
`AND r.full_name LIKE '%'||name_query||'%'` only when `name_query` is truthy;
append `AND r.unit_number = unit_query` only when `unit_query` is truthy;
`ORDER BY p.delivery_date DESC`. -/
def search_history (s : Store) (name_query : Option String) (unit_query : Option Int) :
    List JoinedRow :=
  let rows := packages_join_residents s
  let rows := if truthyStr name_query then
      rows.filter fun row => sqlLike ("%" ++ name_query.getD "" ++ "%") row.2.full_name
    else rows
  let rows := if truthyInt unit_query then
      rows.filter fun row => row.2.unit_number == unit_query.getD 0
    else rows
  List.insertionSort dateGe rows

end repository

/-- Failure signal of the FastAPI layer: `HTTPException(status_code=404, detail=...)`. -/
inductive ApiError where
  | notFound (detail : String)
  deriving Repr, DecidableEq

/-- Response body of `POST /packages` (main.py create_package). -/
structure CreatePackageResponse where
  success : Bool
  package_id : Nat
  message : String
  email_sent : Bool
  deriving Repr, DecidableEq

/-- Response body of `POST /packages/\x7bpackage_id\x7d/pickup` (main.py pickup_package). -/
structure PickupResponse where
  success : Bool
  message : String
  deriving Repr, DecidableEq

/-- Response body of `POST /unknown/assign` (main.py assign_unknown_package). -/
structure AssignResponse where
  success : Bool
  message : String
  email_sent : Bool
  deriving Repr, DecidableEq

/-- True exactly when an endpoint outcome is a 404 NotFound failure. -/
def isNotFound {α : Type} : Except ApiError α → Bool
  | .error (.notFound _) => true
  | .ok _ => false

namespace api

/-- main.py create_package (`POST /packages`): look up the resident (404 if
absent), insert the package with the current timestamp `now`, then call
`send_notification`; the notification outcome `email_ok` is an external
oracle and is only reported back as the `email_sent` flag. -/
def create_package (s : Store) (resident_id : Nat) (carrier : String)
    (now : String) (email_ok : Bool) :
    Except ApiError CreatePackageResponse × Store :=
  match repository.get_resident_by_id s resident_id with
  | none => (.error (.notFound "Resident not found"), s)
  | some resident =>
    let r := repository.create_package s resident_id carrier now
    (.ok ⟨true, r.1, "Package logged for " ++ resident.full_name, email_ok⟩, r.2)

/-- main.py pickup_package (`POST /packages/\x7bpackage_id\x7d/pickup`):
run the repository update, then 404 when it reported no matching row. -/
def pickup_package (s : Store) (package_id : Nat) :
    Except ApiError PickupResponse × Store :=
  let r := repository.mark_package_picked_up s package_id
  if r.1 then
    (.ok ⟨true, "Package " ++ toString package_id ++ " marked as picked up"⟩, r.2)
  else
    (.error (.notFound "Package not found"), r.2)

/-- main.py log_unknown_package (`POST /unknown`): unconditional insert. -/
def log_unknown_package (s : Store) (name_on_label carrier : String) (now : String) :
    Nat × Store :=
  repository.log_unknown_package s name_on_label carrier now

/-- main.py assign_unknown_package (`POST /unknown/assign`): look up the
resident first (404 if absent), then run the repository assignment (404 if
the unknown id is absent); on success the notification outcome `email_ok`
is reported back as the `email_sent` flag. -/
def assign_unknown_package (s : Store) (unknown_id resident_id : Nat) (email_ok : Bool) :
    Except ApiError AssignResponse × Store :=
  match repository.get_resident_by_id s resident_id with
  | none => (.error (.notFound "Resident not found"), s)
  | some resident =>
    let r := repository.assign_unknown_to_resident s unknown_id resident_id
    if r.1 then
      (.ok ⟨true, "Package assigned to " ++ resident.full_name, email_ok⟩, r.2)
    else
      (.error (.notFound "Unknown package not found"), r.2)

end api

/-- The state-changing lifecycle operations, as exposed by the API layer;
`addResident` models seeding rows into the Residents table (seed.py).
The notification oracle does not affect the stored state, so `applyOp`
fixes it to `true`. -/
inductive Op where
  | addResident (r : Resident)
  | logPackage (resident_id : Nat) (carrier now : String)
  | pickup (package_id : Nat)
  | logUnknown (name_on_label carrier now : String)
  | assignUnknown (unknown_id resident_id : Nat)
  deriving Repr, DecidableEq

/-- State transition of one lifecycle operation. -/
def applyOp (s : Store) : Op → Store
  | .addResident r => { s with residents := s.residents ++ [r] }
  | .logPackage resident_id carrier now => (api.create_package s resident_id carrier now true).2
  | .pickup package_id => (api.pickup_package s package_id).2
  | .logUnknown name_on_label carrier now => (api.log_unknown_package s name_on_label carrier now).2
  | .assignUnknown unknown_id resident_id => (api.assign_unknown_package s unknown_id resident_id true).2

/-- The initial empty store; SQLite AUTOINCREMENT keys start at 1. -/
def emptyStore : Store := ⟨[], [], [], 1, 1⟩

/-- Run a sequence of lifecycle operations from the empty store. -/
def runOps (ops : List Op) : Store :=
  ops.foldl applyOp emptyStore

/-- A store state reachable by some sequence of lifecycle operations. -/
def Reachable (s : Store) : Prop :=
  ∃ ops : List Op, runOps ops = s

/-- Lower-cased character list of a string; SQLite folds case for ASCII
characters only, which is exactly what `Char.toLower` does. -/
def lowerChars (s : String) : List Char :=
  s.data.map Char.toLower

/-- Spec-side predicate: `q` is an initial segment of `hay`. -/
def beginsWith : List Char → List Char → Bool
  | [], _ => true
  | _ :: _, [] => false
  | c :: q, h :: hs => c == h && beginsWith q hs

/-- Spec-side predicate, following the specification text "full name
contains the query": `q` occurs as a contiguous run inside `hay`. -/
def occursIn (q : List Char) : List Char → Bool
  | [] => q.isEmpty
  | h :: hs => beginsWith q (h :: hs) || occursIn q hs

/-- Auto-assigned keys of existing rows are below the AUTOINCREMENT counters. -/
def IdsBounded (s : Store) : Prop :=
  (∀ p ∈ s.packages, p.package_id < s.next_package_id) ∧
  (∀ u ∈ s.unknowns, u.unknown_id < s.next_unknown_id)

/-- Primary keys of the two auto-keyed tables are unique. -/
def IdsNodup (s : Store) : Prop :=
  (s.packages.map Package.package_id).Nodup ∧
  (s.unknowns.map UnknownPackage.unknown_id).Nodup

/-- Structural well-formedness of a store, maintained by every operation. -/
def WF (s : Store) : Prop :=
  IdsBounded s ∧ IdsNodup s

/-- Every resolved UnknownPackage has a corresponding Packages row carrying
its assignee, carrier and original delivery timestamp. -/
def ResolvedHasPackage (s : Store) : Prop :=
  ∀ u ∈ s.unknowns, ∀ rid, u.assigned_resident_id = some rid →
    ∃ p ∈ s.packages, p.resident_id = rid ∧ p.carrier = u.carrier ∧
      p.delivery_date = u.delivery_date

/-- Every Packages row carries one of the two statuses the code ever writes. -/
def StatusValid (s : Store) : Prop :=
  ∀ p ∈ s.packages, p.status = "Pending" ∨ p.status = "PickedUp"

/-- The possible shapes of one lifecycle step: unchanged (failed operation),
a seeded resident, an inserted Pending package, a pickup update, an inserted
open unknown, or the two-write assignment. -/
def StepShape (s s' : Store) : Prop :=
  s' = s ∨
  (∃ r, s' = { s with residents := s.residents ++ [r] }) ∨
  (∃ rid c d, s' = { s with
      packages := s.packages ++ [⟨s.next_package_id, rid, c, d, "Pending"⟩],
      next_package_id := s.next_package_id + 1 }) ∨
  (∃ pid, s' = { s with packages := s.packages.map (repository.markFn pid) }) ∨
  (∃ n c d, s' = { s with
      unknowns := s.unknowns ++ [⟨s.next_unknown_id, n, c, d, none⟩],
      next_unknown_id := s.next_unknown_id + 1 }) ∨
  (∃ uid rid uk, s.unknowns.find? (fun u => u.unknown_id == uid) = some uk ∧
    s' = { s with
      unknowns := s.unknowns.map (repository.assignFn uid rid),
      packages := s.packages ++
        [⟨s.next_package_id, rid, uk.carrier, uk.delivery_date, "Pending"⟩],
      next_package_id := s.next_package_id + 1 })

/-- Concrete residents, packages and unknowns used to instantiate theorems. -/
def wResident1 : Resident := ⟨1, "Kittie Mousdall", "k@x", 101⟩

/-- Second concrete resident. -/
def wResident2 : Resident := ⟨2, "Claudette Rait", "c@x", 102⟩

/-- Concrete pending package of resident 1. -/
def wPackage1 : Package := ⟨1, 1, "UPS", "2024-01-02 10:00:00", "Pending"⟩

/-- Concrete pending package whose resident id 9 references no resident. -/
def wPackage2 : Package := ⟨2, 9, "DHL", "2024-01-03 10:00:00", "Pending"⟩

/-- Concrete open unknown package. -/
def wUnknown1 : UnknownPackage := ⟨1, "J. Doe", "USPS", "2024-01-01 09:00:00", none⟩

/-- Concrete store used to instantiate hypotheses of the proved theorems. -/
def wStore : Store :=
  ⟨[wResident1, wResident2], [wPackage1, wPackage2], [wUnknown1], 3, 2⟩

/-- Operation sequence that logs an unknown package and assigns it once. -/
def reassignOps : List Op :=
  [.addResident ⟨1, "Ann", "a@x", 101⟩, .addResident ⟨2, "Bob", "b@x", 102⟩,
   .logUnknown "J" "UPS" "2024-01-01 00:00:00", .assignUnknown 1 1]

/-! ## Basic lemmas about the row-update functions -/

theorem markFn_fields (pid : Nat) (p : Package) :
    (repository.markFn pid p).package_id = p.package_id ∧
    (repository.markFn pid p).resident_id = p.resident_id ∧
    (repository.markFn pid p).carrier = p.carrier ∧
    (repository.markFn pid p).delivery_date = p.delivery_date := by
  unfold repository.markFn
  split <;> exact ⟨rfl, rfl, rfl, rfl⟩

theorem assignFn_fields (uid rid : Nat) (u : UnknownPackage) :
    (repository.assignFn uid rid u).unknown_id = u.unknown_id ∧
    (repository.assignFn uid rid u).name_on_label = u.name_on_label ∧
    (repository.assignFn uid rid u).carrier = u.carrier ∧
    (repository.assignFn uid rid u).delivery_date = u.delivery_date := by
  unfold repository.assignFn
  split <;> exact ⟨rfl, rfl, rfl, rfl⟩

theorem markFn_of_ne (pid : Nat) (p : Package) (h : p.package_id ≠ pid) :
    repository.markFn pid p = p := by
  unfold repository.markFn
  simp [h]

theorem markFn_of_eq (pid : Nat) (p : Package) (h : p.package_id = pid) :
    repository.markFn pid p = { p with status := "PickedUp" } := by
  unfold repository.markFn
  simp [h]

theorem assignFn_of_ne (uid rid : Nat) (u : UnknownPackage) (h : u.unknown_id ≠ uid) :
    repository.assignFn uid rid u = u := by
  unfold repository.assignFn
  simp [h]

theorem assignFn_of_eq (uid rid : Nat) (u : UnknownPackage) (h : u.unknown_id = uid) :
    repository.assignFn uid rid u = { u with assigned_resident_id := some rid } := by
  unfold repository.assignFn
  simp [h]

/-! ## C5: MarkPickedUp -/

/-- C5: for a package id that resolves to an existing Packages row,
MarkPickedUp returns True and every subsequent read of that id (every row
carrying the id, in particular the `get_package_by_id` read) shows status
PickedUp; for an id that resolves to no row it returns False and the store
is unchanged. -/
theorem mark_picked_up_correct (s : Store) (package_id : Nat) :
    ((∃ p ∈ s.packages, p.package_id = package_id) →
      (repository.mark_package_picked_up s package_id).1 = true ∧
      (∀ q ∈ (repository.mark_package_picked_up s package_id).2.packages,
         q.package_id = package_id → q.status = "PickedUp") ∧
      (∀ q, repository.get_package_by_id
          (repository.mark_package_picked_up s package_id).2 package_id = some q →
         q.status = "PickedUp")) ∧
    ((∀ p ∈ s.packages, p.package_id ≠ package_id) →
      (repository.mark_package_picked_up s package_id).1 = false ∧
      (repository.mark_package_picked_up s package_id).2 = s) := by
  constructor
  · rintro ⟨p, hp, hpe⟩
    have hrows : ∀ q ∈ (repository.mark_package_picked_up s package_id).2.packages,
        q.package_id = package_id → q.status = "PickedUp" := by
      intro q hq hqe
      simp only [repository.mark_package_picked_up, List.mem_map] at hq
      obtain ⟨p0, _, rfl⟩ := hq
      by_cases hb : p0.package_id = package_id
      · rw [markFn_of_eq _ _ hb]
      · rw [markFn_of_ne _ _ hb] at hqe ⊢
        exact absurd hqe hb
    refine ⟨?_, hrows, ?_⟩
    · simp only [repository.mark_package_picked_up, List.any_eq_true]
      exact ⟨p, hp, by simp [hpe]⟩
    · intro q hq
      have hmem := List.mem_of_find?_eq_some hq
      have hpq := List.find?_some hq
      exact hrows q hmem (by simpa using hpq)
  · intro h
    constructor
    · simp only [repository.mark_package_picked_up, List.any_eq_false]
      intro p hp
      simp [h p hp]
    · show { s with packages := s.packages.map (repository.markFn package_id) } = s
      have : s.packages.map (repository.markFn package_id) = s.packages := by
        rw [show s.packages.map (repository.markFn package_id) = s.packages.map id from
          List.map_congr_left fun p hp => markFn_of_ne _ _ (h p hp), List.map_id]
      rw [this]

/-- C5 witness: concrete success on package 1 and failure on package 99 of
the concrete store. -/
theorem mark_picked_up_correct_witness :
    (repository.mark_package_picked_up wStore 1).1 = true ∧
    (repository.mark_package_picked_up wStore 99).2 = wStore := by
  refine ⟨((mark_picked_up_correct wStore 1).1 ⟨wPackage1, by decide, by decide⟩).1,
          ((mark_picked_up_correct wStore 99).2 ?_).2⟩
  decide

/-! ## C6: MarkPickedUp is a success-reporting state no-op the second time -/

/-- C6: a second MarkPickedUp on the same existing package reports success
and leaves the store exactly as it was after the first call. -/
theorem mark_picked_up_second_noop (s : Store) (package_id : Nat)
    (h : ∃ p ∈ s.packages, p.package_id = package_id) :
    (repository.mark_package_picked_up
        (repository.mark_package_picked_up s package_id).2 package_id).1 = true ∧
    (repository.mark_package_picked_up
        (repository.mark_package_picked_up s package_id).2 package_id).2 =
      (repository.mark_package_picked_up s package_id).2 := by
  obtain ⟨p, hp, hpe⟩ := h
  constructor
  · simp only [repository.mark_package_picked_up, List.any_eq_true, List.mem_map]
    exact ⟨repository.markFn package_id p, ⟨p, hp, rfl⟩,
      by simp [(markFn_fields package_id p).1, hpe]⟩
  · have hmm : ((s.packages.map (repository.markFn package_id)).map
        (repository.markFn package_id)) = s.packages.map (repository.markFn package_id) := by
      rw [List.map_map]
      refine List.map_congr_left fun q _ => ?_
      by_cases hb : q.package_id = package_id
      · simp [repository.markFn, hb]
      · simp [repository.markFn, hb]
    simp only [repository.mark_package_picked_up]
    rw [hmm]

/-- C6 witness: the second pickup of package 1 in the concrete store. -/
theorem mark_picked_up_second_noop_witness :
    (repository.mark_package_picked_up
        (repository.mark_package_picked_up wStore 1).2 1).1 = true :=
  (mark_picked_up_second_noop wStore 1 ⟨wPackage1, by decide, by decide⟩).1

/-! ## C8: LogPackage endpoint -/

/-- C8: for a resident id that does not resolve, the create-package endpoint
fails with NotFound and inserts nothing; for a resolving resident id the
Pending package is inserted with the given timestamp, the notification
outcome is reported only as the `email_sent` flag, and the resulting store
does not depend on that outcome (a failed notification neither rolls back
nor retries the insert). -/
theorem create_package_endpoint_correct (s : Store) (resident_id : Nat)
    (carrier now : String) (email_ok : Bool) :
    (repository.get_resident_by_id s resident_id = none →
      api.create_package s resident_id carrier now email_ok =
        (.error (.notFound "Resident not found"), s)) ∧
    (∀ resident, repository.get_resident_by_id s resident_id = some resident →
      (api.create_package s resident_id carrier now email_ok).2.packages =
        s.packages ++ [⟨s.next_package_id, resident_id, carrier, now, "Pending"⟩] ∧
      (api.create_package s resident_id carrier now email_ok).1 =
        .ok ⟨true, s.next_package_id, "Package logged for " ++ resident.full_name, email_ok⟩ ∧
      (api.create_package s resident_id carrier now true).2 =
        (api.create_package s resident_id carrier now false).2) := by
  constructor
  · intro h
    simp [api.create_package, h]
  · intro resident h
    simp [api.create_package, h, repository.create_package]

/-- C8 witness: resident 99 does not resolve in the concrete store, and
resident 1 resolves to the first concrete resident. -/
theorem create_package_endpoint_correct_witness :
    api.create_package wStore 99 "UPS" "2024-02-01 08:00:00" true =
      (.error (.notFound "Resident not found"), wStore) ∧
    (api.create_package wStore 1 "UPS" "2024-02-01 08:00:00" true).2.packages =
      wStore.packages ++ [⟨3, 1, "UPS", "2024-02-01 08:00:00", "Pending"⟩] := by
  refine ⟨(create_package_endpoint_correct wStore 99 "UPS" "2024-02-01 08:00:00" true).1 ?_,
          ((create_package_endpoint_correct wStore 1 "UPS" "2024-02-01 08:00:00" true).2
            wResident1 ?_).1⟩
  · decide
  · decide

/-! ## C3: AssignUnknownToResident NotFound failures -/

/-- C3: when either the resident id or the unknown id does not resolve, the
assign endpoint fails with a 404 NotFound and the store is unchanged: no
UnknownPackages row is mutated and no Packages row is inserted. -/
theorem assign_unknown_endpoint_not_found (s : Store) (unknown_id resident_id : Nat)
    (email_ok : Bool)
    (h : repository.get_resident_by_id s resident_id = none ∨
         s.unknowns.find? (fun u => u.unknown_id == unknown_id) = none) :
    isNotFound (api.assign_unknown_package s unknown_id resident_id email_ok).1 = true ∧
    (api.assign_unknown_package s unknown_id resident_id email_ok).2 = s := by
  rcases hres : repository.get_resident_by_id s resident_id with _ | resident
  · simp [api.assign_unknown_package, hres, isNotFound]
  · rcases h with h | h
    · rw [hres] at h
      exact absurd h (by simp)
    · simp [api.assign_unknown_package, hres, repository.assign_unknown_to_resident, h,
        isNotFound]

/-- C3 witness: unknown id 99 does not resolve in the concrete store. -/
theorem assign_unknown_endpoint_not_found_witness :
    isNotFound (api.assign_unknown_package wStore 99 1 true).1 = true ∧
    (api.assign_unknown_package wStore 99 1 true).2 = wStore :=
  assign_unknown_endpoint_not_found wStore 99 1 true (Or.inr (by decide))

/-! ## C1: successful assignment of an unknown package -/

theorem find?_map_assignFn (l : List UnknownPackage) (uid rid : Nat) (uk : UnknownPackage)
    (hu : l.find? (fun u => u.unknown_id == uid) = some uk) :
    (l.map (repository.assignFn uid rid)).find? (fun u => u.unknown_id == uid) =
      some { uk with assigned_resident_id := some rid } := by
  rw [List.find?_map]
  have hpred : ((fun u : UnknownPackage => u.unknown_id == uid) ∘ repository.assignFn uid rid) =
      fun u => u.unknown_id == uid := by
    funext u
    simp [Function.comp, (assignFn_fields uid rid u).1]
  rw [hpred, hu]
  have huk : uk.unknown_id = uid := by simpa using List.find?_some hu
  simp [assignFn_of_eq uid rid uk huk]

theorem assign_unknown_endpoint_state (s : Store) (unknown_id resident_id : Nat)
    (email_ok : Bool) (resident : Resident) (unknown_pkg : UnknownPackage)
    (hr : repository.get_resident_by_id s resident_id = some resident)
    (hu : s.unknowns.find? (fun u => u.unknown_id == unknown_id) = some unknown_pkg) :
    (api.assign_unknown_package s unknown_id resident_id email_ok).2 =
      { s with
        unknowns := s.unknowns.map (repository.assignFn unknown_id resident_id),
        packages := s.packages ++
          [⟨s.next_package_id, resident_id, unknown_pkg.carrier,
            unknown_pkg.delivery_date, "Pending"⟩],
        next_package_id := s.next_package_id + 1 } := by
  simp [api.assign_unknown_package, hr, repository.assign_unknown_to_resident, hu]

/-- C1: with an existing resident and an existing unknown package, the
assign endpoint succeeds, the UnknownPackages row now carries the assigned
resident id, exactly one new Packages row is appended — for that resident,
with the unknown record's carrier and original delivery timestamp and
status Pending — and the unknown id no longer occurs in the open-unknowns
listing. -/
theorem assign_unknown_endpoint_success (s : Store) (unknown_id resident_id : Nat)
    (email_ok : Bool) (resident : Resident) (unknown_pkg : UnknownPackage)
    (hr : repository.get_resident_by_id s resident_id = some resident)
    (hu : s.unknowns.find? (fun u => u.unknown_id == unknown_id) = some unknown_pkg) :
    (api.assign_unknown_package s unknown_id resident_id email_ok).1 =
      .ok ⟨true, "Package assigned to " ++ resident.full_name, email_ok⟩ ∧
    (api.assign_unknown_package s unknown_id resident_id email_ok).2.unknowns.find?
        (fun u => u.unknown_id == unknown_id) =
      some { unknown_pkg with assigned_resident_id := some resident_id } ∧
    (api.assign_unknown_package s unknown_id resident_id email_ok).2.packages =
      s.packages ++ [⟨s.next_package_id, resident_id, unknown_pkg.carrier,
        unknown_pkg.delivery_date, "Pending"⟩] ∧
    (∀ u ∈ repository.get_unknown_packages
        (api.assign_unknown_package s unknown_id resident_id email_ok).2,
      u.unknown_id ≠ unknown_id) := by
  have hstate := assign_unknown_endpoint_state s unknown_id resident_id email_ok
    resident unknown_pkg hr hu
  refine ⟨?_, ?_, ?_, ?_⟩
  · simp [api.assign_unknown_package, hr, repository.assign_unknown_to_resident, hu]
  · rw [hstate]
    exact find?_map_assignFn s.unknowns unknown_id resident_id unknown_pkg hu
  · rw [hstate]
  · intro u hmem
    rw [hstate] at hmem
    unfold repository.get_unknown_packages at hmem
    rw [(List.perm_insertionSort unknownDateGe _).mem_iff] at hmem
    rw [List.mem_filter] at hmem
    obtain ⟨hmap, hnone⟩ := hmem
    rw [List.mem_map] at hmap
    obtain ⟨u0, _, rfl⟩ := hmap
    by_cases hb : u0.unknown_id = unknown_id
    · rw [assignFn_of_eq _ _ _ hb] at hnone
      simp [Option.isNone] at hnone
    · rw [assignFn_of_ne _ _ _ hb]
      exact hb

/-- C1 witness: assigning the concrete unknown package 1 to resident 1. -/
theorem assign_unknown_endpoint_success_witness :
    (api.assign_unknown_package wStore 1 1 true).2.packages =
      wStore.packages ++ [⟨3, 1, "USPS", "2024-01-01 09:00:00", "Pending"⟩] ∧
    (api.assign_unknown_package wStore 1 1 true).2.unknowns.find?
        (fun u => u.unknown_id == 1) =
      some { wUnknown1 with assigned_resident_id := some 1 } := by
  have h := assign_unknown_endpoint_success wStore 1 1 true wResident1 wUnknown1
    (by decide) (by decide)
  exact ⟨h.2.2.1, h.2.1⟩

/-! ## C10: packages with a dangling resident id -/

theorem mem_join_resident (s : Store) (row : JoinedRow)
    (h : row ∈ packages_join_residents s) :
    row.1 ∈ s.packages ∧ row.2 ∈ s.residents ∧ row.2.id = row.1.resident_id := by
  unfold packages_join_residents at h
  rw [List.mem_flatMap] at h
  obtain ⟨p, hp, hrow⟩ := h
  rw [List.mem_map] at hrow
  obtain ⟨r, hr, rfl⟩ := hrow
  rw [List.mem_filter] at hr
  exact ⟨hp, hr.1, by simpa using hr.2⟩

theorem mem_search_history_join (s : Store) (name_query : Option String)
    (unit_query : Option Int) (row : JoinedRow)
    (h : row ∈ repository.search_history s name_query unit_query) :
    row ∈ packages_join_residents s := by
  unfold repository.search_history at h
  rw [(List.perm_insertionSort dateGe _).mem_iff] at h
  split at h
  · split at h
    · exact List.mem_of_mem_filter (List.mem_of_mem_filter h)
    · exact List.mem_of_mem_filter h
  · split at h
    · exact List.mem_of_mem_filter h
    · exact h

/-- C10: a Packages row whose resident id references no Residents row is
omitted from the pending-packages listing and from every SearchHistory
result (the inner join drops it), yet MarkPickedUp on its id still reports
success. -/
theorem dangling_package_hidden (s : Store) (p : Package)
    (hp : p ∈ s.packages) (hd : ∀ r ∈ s.residents, r.id ≠ p.resident_id) :
    (∀ row ∈ repository.get_pending_packages s, row.1 ≠ p) ∧
    (∀ name_query unit_query,
       ∀ row ∈ repository.search_history s name_query unit_query, row.1 ≠ p) ∧
    (repository.mark_package_picked_up s p.package_id).1 = true := by
  have hjoin : ∀ row ∈ packages_join_residents s, row.1 ≠ p := by
    rintro row hrow rfl
    obtain ⟨_, hr, hid⟩ := mem_join_resident s row hrow
    exact hd row.2 hr hid
  refine ⟨?_, ?_, ?_⟩
  · intro row hrow
    unfold repository.get_pending_packages at hrow
    rw [(List.perm_insertionSort dateGe _).mem_iff] at hrow
    exact hjoin row (List.mem_of_mem_filter hrow)
  · intro nq uq row hrow
    exact hjoin row (mem_search_history_join s nq uq row hrow)
  · simp only [repository.mark_package_picked_up, List.any_eq_true]
    exact ⟨p, hp, by simp⟩

/-- C10 witness: the concrete package 2 references the absent resident 9. -/
theorem dangling_package_hidden_witness :
    (∀ row ∈ repository.get_pending_packages wStore, row.1 ≠ wPackage2) ∧
    (repository.mark_package_picked_up wStore 2).1 = true := by
  have h := dangling_package_hidden wStore wPackage2 (by decide) (by decide)
  exact ⟨h.1, h.2.2⟩

/-! ## Step shapes of the lifecycle operations -/

theorem create_package_state (s : Store) (rid : Nat) (c now : String) (email_ok : Bool) :
    (api.create_package s rid c now email_ok).2 = s ∨
    (api.create_package s rid c now email_ok).2 =
      { s with packages := s.packages ++ [⟨s.next_package_id, rid, c, now, "Pending"⟩],
               next_package_id := s.next_package_id + 1 } := by
  rcases h : repository.get_resident_by_id s rid with _ | r
  · left
    simp [api.create_package, h]
  · right
    simp [api.create_package, h, repository.create_package]

theorem pickup_package_state (s : Store) (pid : Nat) :
    (api.pickup_package s pid).2 =
      { s with packages := s.packages.map (repository.markFn pid) } := by
  simp only [api.pickup_package]
  split <;> rfl

theorem assign_unknown_state_cases (s : Store) (uid rid : Nat) (email_ok : Bool) :
    (api.assign_unknown_package s uid rid email_ok).2 = s ∨
    ∃ uk, s.unknowns.find? (fun u => u.unknown_id == uid) = some uk ∧
      (api.assign_unknown_package s uid rid email_ok).2 =
        { s with
          unknowns := s.unknowns.map (repository.assignFn uid rid),
          packages := s.packages ++
            [⟨s.next_package_id, rid, uk.carrier, uk.delivery_date, "Pending"⟩],
          next_package_id := s.next_package_id + 1 } := by
  rcases hres : repository.get_resident_by_id s rid with _ | r
  · left
    simp [api.assign_unknown_package, hres]
  · rcases hu : s.unknowns.find? (fun u => u.unknown_id == uid) with _ | uk
    · left
      simp [api.assign_unknown_package, hres, repository.assign_unknown_to_resident, hu]
    · right
      exact ⟨uk, hu,
        by simp [api.assign_unknown_package, hres, repository.assign_unknown_to_resident, hu]⟩

theorem applyOp_shape (s : Store) (op : Op) : StepShape s (applyOp s op) := by
  cases op with
  | addResident r =>
    exact Or.inr (Or.inl ⟨r, rfl⟩)
  | logPackage rid c now =>
    rcases create_package_state s rid c now true with h | h
    · exact Or.inl h
    · exact Or.inr (Or.inr (Or.inl ⟨rid, c, now, h⟩))
  | pickup pid =>
    exact Or.inr (Or.inr (Or.inr (Or.inl ⟨pid, pickup_package_state s pid⟩)))
  | logUnknown n c now =>
    exact Or.inr (Or.inr (Or.inr (Or.inr (Or.inl ⟨n, c, now, rfl⟩))))
  | assignUnknown uid rid =>
    rcases assign_unknown_state_cases s uid rid true with h | ⟨uk, hu, h⟩
    · exact Or.inl h
    · exact Or.inr (Or.inr (Or.inr (Or.inr (Or.inr ⟨uid, rid, uk, hu, h⟩))))

/-! ## Well-formedness is preserved by every step -/

theorem map_package_id_markFn (l : List Package) (pid : Nat) :
    (l.map (repository.markFn pid)).map Package.package_id = l.map Package.package_id := by
  rw [List.map_map]
  exact List.map_congr_left fun p _ => (markFn_fields pid p).1

theorem map_unknown_id_assignFn (l : List UnknownPackage) (uid rid : Nat) :
    (l.map (repository.assignFn uid rid)).map UnknownPackage.unknown_id =
      l.map UnknownPackage.unknown_id := by
  rw [List.map_map]
  exact List.map_congr_left fun u _ => (assignFn_fields uid rid u).1

theorem nodup_append_fresh {l : List Nat} {a : Nat} (h : l.Nodup) (ha : ∀ x ∈ l, x < a) :
    (l ++ [a]).Nodup := by
  rw [List.nodup_append]
  refine ⟨h, List.nodup_singleton a, ?_⟩
  intro x hx hxa
  rw [List.mem_singleton] at hxa
  subst hxa
  exact absurd (ha x hx) (lt_irrefl x)

theorem WF_step (s s' : Store) (hs : StepShape s s') (h : WF s) : WF s' := by
  obtain ⟨⟨hbp, hbu⟩, hnp, hnu⟩ := h
  rcases hs with rfl | ⟨r, rfl⟩ | ⟨rid, c, d, rfl⟩ | ⟨pid, rfl⟩ | ⟨n, c, d, rfl⟩ |
    ⟨uid, rid, uk, hu, rfl⟩
  · exact ⟨⟨hbp, hbu⟩, hnp, hnu⟩
  · exact ⟨⟨hbp, hbu⟩, hnp, hnu⟩
  · refine ⟨⟨?_, hbu⟩, ?_, hnu⟩
    · intro p hp
      rcases List.mem_append.1 hp with hp | hp
      · exact Nat.lt_succ_of_lt (hbp p hp)
      · rw [List.mem_singleton] at hp
        subst hp
        exact Nat.lt_succ_self _
    · rw [List.map_append]
      exact nodup_append_fresh hnp fun x hx => by
        rw [List.mem_map] at hx
        obtain ⟨p, hp, rfl⟩ := hx
        exact hbp p hp
  · refine ⟨⟨?_, hbu⟩, ?_, hnu⟩
    · intro p hp
      rw [List.mem_map] at hp
      obtain ⟨p0, hp0, rfl⟩ := hp
      rw [(markFn_fields pid p0).1]
      exact hbp p0 hp0
    · rw [map_package_id_markFn]
      exact hnp
  · refine ⟨⟨hbp, ?_⟩, hnp, ?_⟩
    · intro u hu'
      rcases List.mem_append.1 hu' with hu' | hu'
      · exact Nat.lt_succ_of_lt (hbu u hu')
      · rw [List.mem_singleton] at hu'
        subst hu'
        exact Nat.lt_succ_self _
    · rw [List.map_append]
      exact nodup_append_fresh hnu fun x hx => by
        rw [List.mem_map] at hx
        obtain ⟨u, hu', rfl⟩ := hx
        exact hbu u hu'
  · refine ⟨⟨?_, ?_⟩, ?_, ?_⟩
    · intro p hp
      rcases List.mem_append.1 hp with hp | hp
      · exact Nat.lt_succ_of_lt (hbp p hp)
      · rw [List.mem_singleton] at hp
        subst hp
        exact Nat.lt_succ_self _
    · intro u hu'
      rw [List.mem_map] at hu'
      obtain ⟨u0, hu0, rfl⟩ := hu'
      rw [(assignFn_fields uid rid u0).1]
      exact hbu u0 hu0
    · rw [List.map_append]
      exact nodup_append_fresh hnp fun x hx => by
        rw [List.mem_map] at hx
        obtain ⟨p, hp, rfl⟩ := hx
        exact hbp p hp
    · rw [map_unknown_id_assignFn]
      exact hnu

theorem foldl_pres (P : Store → Prop) (hstep : ∀ s op, P s → P (applyOp s op)) :
    ∀ (ops : List Op) (s : Store), P s → P (ops.foldl applyOp s) := by
  intro ops
  induction ops with
  | nil => exact fun s h => h
  | cons op rest ih => exact fun s h => ih (applyOp s op) (hstep s op h)

theorem reachable_pres (P : Store → Prop) (h0 : P emptyStore)
    (hstep : ∀ s op, P s → P (applyOp s op)) (s : Store) (h : Reachable s) : P s := by
  obtain ⟨ops, rfl⟩ := h
  exact foldl_pres P hstep ops emptyStore h0

theorem WF_emptyStore : WF emptyStore := by
  refine ⟨⟨?_, ?_⟩, ?_, ?_⟩ <;> simp [emptyStore, IdsBounded, IdsNodup]

theorem reachable_WF (s : Store) (h : Reachable s) : WF s :=
  reachable_pres WF WF_emptyStore (fun t op ht => WF_step t _ (applyOp_shape t op) ht) s h

/-! ## C2: every resolved unknown has its corresponding package -/

theorem resolved_step (s s' : Store) (hs : StepShape s s') (hwf : WF s)
    (h : ResolvedHasPackage s) : ResolvedHasPackage s' := by
  rcases hs with rfl | ⟨r, rfl⟩ | ⟨rid, c, d, rfl⟩ | ⟨pid, rfl⟩ | ⟨n, c, d, rfl⟩ |
    ⟨uid, rid, uk, hu, rfl⟩
  · exact h
  · exact h
  · intro u hu rid' ha
    obtain ⟨p, hp, h1, h2, h3⟩ := h u hu rid' ha
    exact ⟨p, List.mem_append_left _ hp, h1, h2, h3⟩
  · intro u hu rid' ha
    obtain ⟨p, hp, h1, h2, h3⟩ := h u hu rid' ha
    refine ⟨repository.markFn pid p, List.mem_map.2 ⟨p, hp, rfl⟩, ?_, ?_, ?_⟩
    · rw [(markFn_fields pid p).2.1]
      exact h1
    · rw [(markFn_fields pid p).2.2.1]
      exact h2
    · rw [(markFn_fields pid p).2.2.2]
      exact h3
  · intro u hu rid' ha
    rcases List.mem_append.1 hu with hu | hu
    · exact h u hu rid' ha
    · rw [List.mem_singleton] at hu
      subst hu
      exact absurd ha (by simp)
  · intro u hmem rid' ha
    rw [List.mem_map] at hmem
    obtain ⟨u0, hu0, rfl⟩ := hmem
    by_cases hb : u0.unknown_id = uid
    · rw [assignFn_of_eq _ _ _ hb] at ha ⊢
      have huk_mem : uk ∈ s.unknowns := List.mem_of_find?_eq_some hu
      have huk_id : uk.unknown_id = uid := by simpa using List.find?_some hu
      have : u0 = uk :=
        List.inj_on_of_nodup_map hwf.2.2 hu0 huk_mem (by rw [hb, huk_id])
      subst this
      have hrid : rid' = rid := by
        simpa using ha.symm
      subst hrid
      exact ⟨⟨s.next_package_id, rid', u0.carrier, u0.delivery_date, "Pending"⟩,
        List.mem_append_right _ (List.mem_singleton.2 rfl), rfl, rfl, rfl⟩
    · rw [assignFn_of_ne _ _ _ hb] at ha ⊢
      obtain ⟨p, hp, h1, h2, h3⟩ := h u0 hu0 rid' ha
      exact ⟨p, List.mem_append_left _ hp, h1, h2, h3⟩

/-- C2: in every state reachable by lifecycle operations from the empty
store, every resolved UnknownPackage (non-null assigned resident id) has a
corresponding Packages row for that resident carrying the unknown record's
carrier and delivery timestamp — the two writes of the assignment are
observable only together, never one without the other. -/
theorem reachable_resolved_has_package (s : Store) (h : Reachable s) :
    ResolvedHasPackage s := by
  have hc : WF s ∧ ResolvedHasPackage s := by
    refine reachable_pres (fun t => WF t ∧ ResolvedHasPackage t) ⟨WF_emptyStore, ?_⟩ ?_ s h
    · intro u hu
      exact absurd hu (List.not_mem_nil u)
    · rintro t op ⟨hwf, hr⟩
      exact ⟨WF_step t _ (applyOp_shape t op) hwf,
        resolved_step t _ (applyOp_shape t op) hwf hr⟩
  exact hc.2

/-- C2 witness: the invariant holds in the concrete reachable state where an
unknown package has been logged and assigned. -/
theorem reachable_resolved_has_package_witness :
    ResolvedHasPackage (runOps reassignOps) :=
  reachable_resolved_has_package (runOps reassignOps) ⟨reassignOps, rfl⟩

/-! ## C9: package status lifecycle -/

theorem status_step (s s' : Store) (hs : StepShape s s') (h : StatusValid s) :
    StatusValid s' := by
  rcases hs with rfl | ⟨r, rfl⟩ | ⟨rid, c, d, rfl⟩ | ⟨pid, rfl⟩ | ⟨n, c, d, rfl⟩ |
    ⟨uid, rid, uk, hu, rfl⟩
  · exact h
  · exact h
  · intro p hp
    rcases List.mem_append.1 hp with hp | hp
    · exact h p hp
    · rw [List.mem_singleton] at hp
      subst hp
      exact Or.inl rfl
  · intro p hp
    rw [List.mem_map] at hp
    obtain ⟨p0, hp0, rfl⟩ := hp
    by_cases hb : p0.package_id = pid
    · rw [markFn_of_eq _ _ hb]
      exact Or.inr rfl
    · rw [markFn_of_ne _ _ hb]
      exact h p0 hp0
  · exact h
  · intro p hp
    rcases List.mem_append.1 hp with hp | hp
    · exact h p hp
    · rw [List.mem_singleton] at hp
      subst hp
      exact Or.inl rfl

theorem fresh_package_pending (s s' : Store) (hs : StepShape s s')
    (p : Package) (hp : p ∈ s'.packages)
    (hfresh : ∀ q ∈ s.packages, q.package_id ≠ p.package_id) :
    p.status = "Pending" := by
  rcases hs with rfl | ⟨r, rfl⟩ | ⟨rid, c, d, rfl⟩ | ⟨pid, rfl⟩ | ⟨n, c, d, rfl⟩ |
    ⟨uid, rid, uk, hu, rfl⟩
  · exact absurd rfl (hfresh p hp)
  · exact absurd rfl (hfresh p hp)
  · rcases List.mem_append.1 hp with hp | hp
    · exact absurd rfl (hfresh p hp)
    · rw [List.mem_singleton] at hp
      subst hp
      rfl
  · rw [List.mem_map] at hp
    obtain ⟨p0, hp0, rfl⟩ := hp
    exact absurd (markFn_fields pid p0).1.symm (hfresh p0 hp0)
  · exact absurd rfl (hfresh p hp)
  · rcases List.mem_append.1 hp with hp | hp
    · exact absurd rfl (hfresh p hp)
    · rw [List.mem_singleton] at hp
      subst hp
      rfl

theorem picked_up_stable (s s' : Store) (hs : StepShape s s') (hwf : WF s)
    (p : Package) (hp : p ∈ s.packages) (hst : p.status = "PickedUp") :
    ∀ q ∈ s'.packages, q.package_id = p.package_id → q.status = "PickedUp" := by
  have hsame : ∀ q ∈ s.packages, q.package_id = p.package_id → q = p := fun q hq hqe =>
    List.inj_on_of_nodup_map hwf.2.1 hq hp hqe
  have hbound : p.package_id < s.next_package_id := hwf.1.1 p hp
  rcases hs with rfl | ⟨r, rfl⟩ | ⟨rid, c, d, rfl⟩ | ⟨pid, rfl⟩ | ⟨n, c, d, rfl⟩ |
    ⟨uid, rid, uk, hu, rfl⟩
  · intro q hq hqe
    rw [hsame q hq hqe]
    exact hst
  · intro q hq hqe
    rw [hsame q hq hqe]
    exact hst
  · intro q hq hqe
    rcases List.mem_append.1 hq with hq | hq
    · rw [hsame q hq hqe]
      exact hst
    · rw [List.mem_singleton] at hq
      subst hq
      exact absurd (hqe ▸ hbound) (lt_irrefl _)
  · intro q hq hqe
    rw [List.mem_map] at hq
    obtain ⟨q0, hq0, rfl⟩ := hq
    rw [(markFn_fields pid q0).1] at hqe
    rw [hsame q0 hq0 hqe]
    by_cases hb : p.package_id = pid
    · rw [markFn_of_eq _ _ hb]
    · rw [markFn_of_ne _ _ hb]
      exact hst
  · intro q hq hqe
    rw [hsame q hq hqe]
    exact hst
  · intro q hq hqe
    rcases List.mem_append.1 hq with hq | hq
    · rw [hsame q hq hqe]
      exact hst
    · rw [List.mem_singleton] at hq
      subst hq
      exact absurd (hqe ▸ hbound) (lt_irrefl _)

/-- C9: in every reachable state every package status is Pending or
PickedUp; a package whose id is new in the state after one more operation
was created with status Pending; and no operation moves a PickedUp package
to any other status. -/
theorem package_status_lifecycle (s : Store) (h : Reachable s) :
    StatusValid s ∧
    (∀ op, ∀ p ∈ (applyOp s op).packages,
       (∀ q ∈ s.packages, q.package_id ≠ p.package_id) → p.status = "Pending") ∧
    (∀ op, ∀ p ∈ s.packages, p.status = "PickedUp" →
       ∀ q ∈ (applyOp s op).packages, q.package_id = p.package_id →
         q.status = "PickedUp") := by
  have hwf := reachable_WF s h
  have hsv : StatusValid s := by
    refine reachable_pres StatusValid ?_ ?_ s h
    · intro p hp
      exact absurd hp (List.not_mem_nil p)
    · intro t op ht
      exact status_step t _ (applyOp_shape t op) ht
  refine ⟨hsv, ?_, ?_⟩
  · intro op p hp hfresh
    exact fresh_package_pending s _ (applyOp_shape s op) p hp hfresh
  · intro op p hp hst q hq hqe
    exact picked_up_stable s _ (applyOp_shape s op) hwf p hp hst q hq hqe

/-- C9 witness: the status invariant in the concrete reachable state. -/
theorem package_status_lifecycle_witness :
    StatusValid (runOps reassignOps) :=
  (package_status_lifecycle (runOps reassignOps) ⟨reassignOps, rfl⟩).1

/-! ## C4: unknown packages and repeated assignment -/

/-- C4 counterexample: after reaching a state in which unknown package 1 is
resolved to resident 1, a further AssignUnknownToResident(1, 2) succeeds,
overwrites the assigned resident id, and creates an additional Package —
so a resolved UnknownPackage is not immune to further mutation. -/
theorem unknown_reassignment_cex :
    (runOps reassignOps).unknowns.map UnknownPackage.assigned_resident_id = [some 1] ∧
    (applyOp (runOps reassignOps) (.assignUnknown 1 2)).unknowns.map
      UnknownPackage.assigned_resident_id = [some 2] ∧
    (applyOp (runOps reassignOps) (.assignUnknown 1 2)).packages.length = 2 := by
  decide

/-- C4 amended: every UnknownPackage starts with a null assigned resident
id; a record already in the store is left untouched by every operation
except an assignment targeting its own unknown id; and each successful
assignment — including a repeated one on an already-resolved record, which
the code does not guard against — sets the assigned resident id and inserts
exactly one additional Package. -/
theorem unknown_mutation_discipline (s : Store) :
    (∀ n c now, ∀ u ∈ (applyOp s (.logUnknown n c now)).unknowns,
       u ∈ s.unknowns ∨ u.assigned_resident_id = none) ∧
    (∀ op, ∀ u ∈ s.unknowns, (∀ rid, op ≠ .assignUnknown u.unknown_id rid) →
       u ∈ (applyOp s op).unknowns) ∧
    (∀ uid rid,
       (repository.assign_unknown_to_resident s uid rid).1 = true →
       (repository.assign_unknown_to_resident s uid rid).2.packages.length =
         s.packages.length + 1 ∧
       ∀ u ∈ (repository.assign_unknown_to_resident s uid rid).2.unknowns,
         u.unknown_id = uid → u.assigned_resident_id = some rid) := by
  refine ⟨?_, ?_, ?_⟩
  · intro n c now u hu
    rcases List.mem_append.1 hu with hu | hu
    · exact Or.inl hu
    · rw [List.mem_singleton] at hu
      subst hu
      exact Or.inr rfl
  · intro op u hu hne
    cases op with
    | addResident r => exact hu
    | logPackage rid c now =>
      show u ∈ (api.create_package s rid c now true).2.unknowns
      rcases create_package_state s rid c now true with h | h <;> rw [h] <;> exact hu
    | pickup pid =>
      show u ∈ (api.pickup_package s pid).2.unknowns
      rw [pickup_package_state s pid]
      exact hu
    | logUnknown n c now =>
      exact List.mem_append_left _ hu
    | assignUnknown uid rid =>
      have huid : u.unknown_id ≠ uid := by
        intro hcon
        exact hne rid (by rw [hcon])
      show u ∈ (api.assign_unknown_package s uid rid true).2.unknowns
      rcases assign_unknown_state_cases s uid rid true with h | ⟨uk, _, h⟩
      · rw [h]
        exact hu
      · rw [h]
        exact List.mem_map.2 ⟨u, hu, assignFn_of_ne _ _ _ huid⟩
  · intro uid rid hsucc
    rcases hu : s.unknowns.find? (fun u => u.unknown_id == uid) with _ | uk
    · rw [repository.assign_unknown_to_resident, hu] at hsucc
      exact absurd hsucc (by simp)
    · rw [repository.assign_unknown_to_resident, hu]
      constructor
      · simp
      · intro u hmem hid
        simp only [List.mem_map] at hmem
        obtain ⟨u0, _, rfl⟩ := hmem
        by_cases hb : u0.unknown_id = uid
        · rw [assignFn_of_eq _ _ _ hb]
        · rw [assignFn_of_ne _ _ _ hb] at hid ⊢
          exact absurd hid hb

/-- C4 amended witness: a pickup does not touch the concrete unknown
record, and the concrete assignment adds exactly one package. -/
theorem unknown_mutation_discipline_witness :
    wUnknown1 ∈ (applyOp wStore (.pickup 1)).unknowns ∧
    (repository.assign_unknown_to_resident wStore 1 1).2.packages.length = 3 := by
  have h := unknown_mutation_discipline wStore
  exact ⟨h.2.1 (.pickup 1) wUnknown1 (by decide) (fun rid hcon => Op.noConfusion hcon),
         (h.2.2 1 1 (by decide)).1⟩

/-! ## C7: SearchHistory filters and ordering -/

theorem beginsWith_nil (q : List Char) : beginsWith q [] = q.isEmpty := by
  cases q <;> rfl

theorem likeAux_pct_nil : ∀ hay, likeAux ['%'] hay = true := by
  intro hay
  induction hay with
  | nil => simp [likeAux]
  | cons h hs ih => simp [likeAux, ih]

theorem likeAux_lit : ∀ (q : List Char), '%' ∉ q → '_' ∉ q →
    ∀ hay, likeAux (q ++ ['%']) hay =
      beginsWith (q.map Char.toLower) (hay.map Char.toLower) := by
  intro q
  induction q with
  | nil =>
    intro _ _ hay
    rw [List.nil_append, likeAux_pct_nil]
    simp [beginsWith]
  | cons c q' ih =>
    intro hp hu hay
    have hc : c ≠ '%' := fun h => hp (h ▸ List.mem_cons_self c q')
    have hc' : c ≠ '_' := fun h => hu (h ▸ List.mem_cons_self c q')
    have hp' : '%' ∉ q' := fun h => hp (List.mem_cons_of_mem c h)
    have hu' : '_' ∉ q' := fun h => hu (List.mem_cons_of_mem c h)
    cases hay with
    | nil => simp [likeAux, beginsWith, hc]
    | cons h hs => simp [likeAux, beginsWith, hc, hc', ih hp' hu' hs]

theorem likeAux_contains (q : List Char) (hp : '%' ∉ q) (hu : '_' ∉ q) :
    ∀ hay, likeAux ('%' :: (q ++ ['%'])) hay =
      occursIn (q.map Char.toLower) (hay.map Char.toLower) := by
  intro hay
  induction hay with
  | nil =>
    have h1 : likeAux ('%' :: (q ++ ['%'])) [] = likeAux (q ++ ['%']) [] := by
      simp [likeAux]
    rw [h1, likeAux_lit q hp hu []]
    simp [beginsWith_nil, occursIn]
  | cons h hs ih =>
    have h1 : likeAux ('%' :: (q ++ ['%'])) (h :: hs) =
        (likeAux (q ++ ['%']) (h :: hs) || likeAux ('%' :: (q ++ ['%'])) hs) := by
      simp [likeAux]
    rw [h1, likeAux_lit q hp hu (h :: hs), ih]
    simp [occursIn]

theorem sqlLike_contains (q t : String) (hp : '%' ∉ q.data) (hu : '_' ∉ q.data) :
    sqlLike ("%" ++ q ++ "%") t = occursIn (lowerChars q) (lowerChars t) := by
  have hdata : ("%" ++ q ++ "%").data = '%' :: (q.data ++ ['%']) := by
    simp [String.data_append]
  rw [sqlLike, hdata, lowerChars, lowerChars]
  exact likeAux_contains q.data hp hu t.data

theorem search_history_mem_code (s : Store) (nq : Option String) (uq : Option Int)
    (row : JoinedRow) :
    row ∈ repository.search_history s nq uq ↔
      (row ∈ packages_join_residents s ∧
       (repository.truthyStr nq = true →
          sqlLike ("%" ++ nq.getD "" ++ "%") row.2.full_name = true) ∧
       (repository.truthyInt uq = true → (row.2.unit_number == uq.getD 0) = true)) := by
  simp only [repository.search_history]
  rw [(List.perm_insertionSort dateGe _).mem_iff]
  by_cases hn : repository.truthyStr nq <;> by_cases hu : repository.truthyInt uq <;>
    simp [hn, hu, List.mem_filter, and_assoc, and_comm, and_left_comm]

/-- C7 counterexample: the store has one joined row, for resident 1 living
in unit 101; by the claim, SearchHistory(unit=0) should return only
packages of residents with unit number 0, hence nothing — but unit query 0
is falsy in Python, the filter is dropped, and the full history comes back,
containing a row whose unit number is not 0. -/
theorem search_history_unit_zero_cex :
    repository.search_history wStore none (some 0) = [(wPackage1, wResident1)] ∧
    wResident1.unit_number ≠ 0 := by
  constructor
  · decide
  · decide

/-- C7 amended: for every store and every filter combination, membership in
the SearchHistory result is: membership in the package-resident join, AND
the case-insensitive substring condition on the resident's full name
whenever a non-empty name query is given (stated for queries free of the
LIKE wildcards `%` and `_`), AND the unit equality whenever a non-zero unit
query is given — an absent, empty or zero-valued filter (Python falsy) is
not applied — and the result is ordered by delivery timestamp descending. -/
theorem search_history_correct (s : Store) (name_query : Option String)
    (unit_query : Option Int)
    (hw : ∀ q, name_query = some q → '%' ∉ q.data ∧ '_' ∉ q.data) :
    (∀ row, row ∈ repository.search_history s name_query unit_query ↔
      (row ∈ packages_join_residents s ∧
       (∀ q, name_query = some q → q ≠ "" →
          occursIn (lowerChars q) (lowerChars row.2.full_name) = true) ∧
       (∀ u, unit_query = some u → u ≠ 0 → row.2.unit_number = u))) ∧
    List.Sorted dateGe (repository.search_history s name_query unit_query) := by
  constructor
  · intro row
    rw [search_history_mem_code]
    refine and_congr_right fun _ => and_congr ?_ ?_
    · rcases name_query with _ | q
      · simp [repository.truthyStr]
      · by_cases hq : q = ""
        · subst hq
          simp [repository.truthyStr]
        · have hlike := sqlLike_contains q row.2.full_name (hw q rfl).1 (hw q rfl).2
          simp [repository.truthyStr, hq, hlike]
    · rcases unit_query with _ | u
      · simp [repository.truthyInt]
      · by_cases hu0 : u = 0
        · subst hu0
          simp [repository.truthyInt]
        · simp [repository.truthyInt, hu0]
  · simp only [repository.search_history]
    exact List.sorted_insertionSort dateGe _

/-- C7 amended witness: searching the concrete store for name "mousd" and
unit 101 keeps the row of resident 1. -/
theorem search_history_correct_witness :
    (wPackage1, wResident1) ∈ repository.search_history wStore (some "mousd") (some 101) := by
  have h := search_history_correct wStore (some "mousd") (some 101)
    (by intro q hq; cases hq; exact ⟨by decide, by decide⟩)
  exact (h.1 (wPackage1, wResident1)).mpr
    ⟨by decide, by intro q hq hne; cases hq; decide, by intro u hu hne; cases hu; decide⟩

end Mailroom
